import Mathlib

/-!
Verification of `src/utils.h` (pucitos/c-utils): a shallow embedding of the
leveled logger, the string helpers, the whole-file reader and the bounded
random generator, with theorems settling the spec's testable properties.

Environment effects are made explicit: the filesystem is a function from
paths to optional byte contents, `fopen` success is a predicate on paths,
`fread`'s byte count and `rand`'s value are parameters, and a log call
returns the line it writes (if any) together with the new logger state and
whether the process terminates.
-/

namespace CUtils

/-- The `LogLevel` enum of `utils.h`: DEBUG < INFO < WARNING < ERROR < FATAL,
with the C enum values 0..4. -/
inductive LogLevel where
  | LOG_DEBUG
  | LOG_INFO
  | LOG_WARNING
  | LOG_ERROR
  | LOG_FATAL
deriving DecidableEq

/-- The integer value of a `LogLevel`, as the C enum assigns it. -/
def LogLevel.toNat : LogLevel → Nat
  | .LOG_DEBUG => 0
  | .LOG_INFO => 1
  | .LOG_WARNING => 2
  | .LOG_ERROR => 3
  | .LOG_FATAL => 4

/-- The `level_str` table of `log_message`. -/
def level_str : LogLevel → String
  | .LOG_DEBUG => "DEBUG"
  | .LOG_INFO => "INFO"
  | .LOG_WARNING => "WARNING"
  | .LOG_ERROR => "ERROR"
  | .LOG_FATAL => "FATAL"

/-- The destination held in the global `log_file`: `unset` models the NULL
pointer, `stdoutDest` the `stdout` stream, `fileDest path` a `FILE*` obtained
from `fopen(path, "a")`. -/
inductive Dest where
  | unset
  | stdoutDest
  | fileDest (path : String)
deriving DecidableEq

/-- The process-wide logger state: the globals `log_file` and
`current_log_level` of `utils.h`. -/
structure LoggerState where
  log_file : Dest
  current_log_level : LogLevel
deriving DecidableEq

/-- The initial values of the globals: `log_file = NULL`,
`current_log_level = LOG_INFO`. -/
def initialLoggerState : LoggerState :=
  { log_file := Dest.unset, current_log_level := LogLevel.LOG_INFO }

/-- What a `log_init` call produces: its boolean return value, the logger
state after the call, and whether a diagnostic was printed to stderr. -/
structure InitResult where
  ret : Bool
  state : LoggerState
  stderrDiag : Bool
deriving DecidableEq

/-- `log_init(filename, level)` of `utils.h`. `openOk path` tells whether
`fopen(path, "a")` succeeds in the current environment. The level is stored
first, unconditionally; a NULL filename selects stdout; a failed open prints
a diagnostic, leaves `log_file` NULL (the `fopen` result) and returns false. -/
def log_init (st : LoggerState) (filename : Option String) (level : LogLevel)
    (openOk : String → Bool) : InitResult :=
  let st1 : LoggerState := { st with current_log_level := level }
  match filename with
  | none =>
      { ret := true
        state := { st1 with log_file := Dest.stdoutDest }
        stderrDiag := false }
  | some f =>
      if openOk f then
        { ret := true
          state := { st1 with log_file := Dest.fileDest f }
          stderrDiag := false }
      else
        { ret := false
          state := { st1 with log_file := Dest.unset }
          stderrDiag := true }

/-- `log_close()` of `utils.h`: only an open file (non-NULL and not stdout)
is closed and reset to NULL; otherwise nothing happens. -/
def log_close (st : LoggerState) : LoggerState :=
  match st.log_file with
  | Dest.fileDest _ => { st with log_file := Dest.unset }
  | _ => st

/-- What a `log_message` call produces: the logger state after the call, the
line written to the destination (`none` when nothing is written; every
written line is also flushed by the code), and whether the process
terminated via `exit(EXIT_FAILURE)`. -/
structure LogResult where
  state : LoggerState
  written : Option String
  exited : Bool
deriving DecidableEq

/-- `log_message(level, ...)` of `utils.h`. `ts` is the rendered timestamp
and `msg` the rendered `vfprintf` payload, both environment inputs. The code
first replaces a NULL `log_file` with stdout, then suppresses the call when
`level < current_log_level`; otherwise it writes the bracketed line, flushes,
and exits with failure when the level is `LOG_FATAL`. -/
def log_message (st : LoggerState) (level : LogLevel) (ts msg : String) :
    LogResult :=
  let st1 : LoggerState :=
    if st.log_file = Dest.unset then { st with log_file := Dest.stdoutDest }
    else st
  if level.toNat < st1.current_log_level.toNat then
    { state := st1, written := none, exited := false }
  else
    { state := st1
      written := some ("[" ++ ts ++ "] [" ++ level_str level ++ "] " ++ msg ++ "\n")
      exited := decide (level = LogLevel.LOG_FATAL) }

/-- The whitespace test used by `str_trim`: space, tab, newline, carriage
return. -/
def isSpaceChar (c : Char) : Bool :=
  c = ' ' || c = '\t' || c = '\n' || c = '\r'

/-- `str_trim` of `utils.h` on an optional C string (NULL modeled as
`none`): shift the start past leading whitespace, then walk `end` back from
the last character while `end > str` and the character is whitespace,
truncating there — so the character at index 0 is never examined by the
trailing loop. -/
def str_trim (s : Option (List Char)) : Option (List Char) :=
  match s with
  | none => none
  | some cs =>
    match cs.dropWhile isSpaceChar with
    | [] => some []
    | c :: rest => some (c :: (rest.reverse.dropWhile isSpaceChar).reverse)

/-- `str_starts_with` of `utils.h`: false on a NULL argument, false when the
candidate is longer than the string, otherwise `strncmp` over the first
`strlen(candidate)` bytes. -/
def str_starts_with (s p : Option (List Char)) : Bool :=
  match s, p with
  | some str, some pre =>
    if pre.length > str.length then false
    else decide (str.take pre.length = pre)
  | _, _ => false

/-- `str_ends_with` of `utils.h`: false on a NULL argument, false when the
suffix is longer than the string, otherwise `strcmp` from
`str + strlen(str) - strlen(suffix)`. -/
def str_ends_with (s x : Option (List Char)) : Bool :=
  match s, x with
  | some str, some suffix =>
    if suffix.length > str.length then false
    else decide (str.drop (str.length - suffix.length) = suffix)
  | _, _ => false

/-- `file_read_all` of `utils.h`. The filesystem `fs` maps a path to the
byte contents of the file when `fopen(path, "rb")` succeeds (`none`
otherwise); `ftell` after seeking to the end yields the content length, and
`read_size` is the byte count `fread` reports for that read. A NULL filename
or failed open yields NULL; a byte count differing from the size frees the
buffer and yields NULL; otherwise the null-terminated buffer holds exactly
the contents. -/
def file_read_all (fs : String → Option (List Nat)) (filename : Option String)
    (read_size : Nat) : Option (List Nat) :=
  match filename with
  | none => none
  | some f =>
    match fs f with
    | none => none
    | some content =>
      if read_size ≠ content.length then none
      else some content

/-- The smallest value of a 32-bit two's-complement C `int`. -/
def INT_MIN : Int := -2147483648

/-- The largest value of a 32-bit two's-complement C `int`. -/
def INT_MAX : Int := 2147483647

/-- `random_int` of `utils.h`, over 32-bit C `int` arithmetic: swap the
bounds when given in reverse order, then return
`min + rand() % (max - min + 1)`, where `r` is the nonnegative value the
`rand()` call produces and `%` is C's truncated remainder (`Int.tmod`).
A step whose mathematical value leaves the `int` range is signed overflow,
and a remainder by zero is a division by zero: both are undefined behavior
in C, so the model returns `none` there, in evaluation order — the
subtraction `max - min`, the increment `+ 1`, the remainder, the final
addition. -/
def random_int (mn mx : Int) (r : Nat) : Option Int :=
  let lo : Int := if mn > mx then mx else mn
  let hi : Int := if mn > mx then mn else mx
  if hi - lo < INT_MIN ∨ INT_MAX < hi - lo then none
  else if hi - lo + 1 < INT_MIN ∨ INT_MAX < hi - lo + 1 then none
  else if hi - lo + 1 = 0 then none
  else if lo + Int.tmod (r : Int) (hi - lo + 1) < INT_MIN ∨
      INT_MAX < lo + Int.tmod (r : Int) (hi - lo + 1) then none
  else some (lo + Int.tmod (r : Int) (hi - lo + 1))

/-- C1: a `log_message(L, ...)` call writes a log line to the destination
exactly when `L` is at least the current threshold, for every logger state
(hence every threshold), in the DEBUG < INFO < WARNING < ERROR < FATAL
order. -/
theorem log_message_writes_iff_le (st : LoggerState) (level : LogLevel)
    (ts msg : String) :
    ((log_message st level ts msg).written).isSome = true ↔
      st.current_log_level.toNat ≤ level.toNat := by
  unfold log_message
  by_cases h : st.log_file = Dest.unset <;>
    simp only [h, if_true, if_false] <;>
    by_cases h2 : level.toNat < st.current_log_level.toNat <;>
      simp [h2] <;> omega

/-- C2 counterexample: with the destination unset and the threshold at INFO,
a DEBUG call writes nothing yet changes the logger state, setting the
destination to stdout — the claim that a suppressed call leaves the entire
state unchanged even when the destination is unset is false. -/
theorem log_message_suppressed_mutates_unset_dest :
    (log_message { log_file := Dest.unset, current_log_level := LogLevel.LOG_INFO }
        LogLevel.LOG_DEBUG "2025-03-01 00:00:00" "m").written = none ∧
    (log_message { log_file := Dest.unset, current_log_level := LogLevel.LOG_INFO }
        LogLevel.LOG_DEBUG "2025-03-01 00:00:00" "m").state.log_file ≠ Dest.unset := by
  exact ⟨rfl, by decide⟩

/-- C2 amended: a `log_message` call with severity strictly below the
threshold writes nothing, does not terminate the process, and leaves the
threshold unchanged; the destination is unchanged when it was set, but when
it was unset before the call it is set (persistently) to stdout. -/
theorem log_message_suppressed_frame (st : LoggerState) (level : LogLevel)
    (ts msg : String) (h : level.toNat < st.current_log_level.toNat) :
    (log_message st level ts msg).written = none ∧
    (log_message st level ts msg).exited = false ∧
    (log_message st level ts msg).state.current_log_level = st.current_log_level ∧
    (log_message st level ts msg).state.log_file =
      (if st.log_file = Dest.unset then Dest.stdoutDest else st.log_file) := by
  unfold log_message
  by_cases hd : st.log_file = Dest.unset <;> simp [hd, h]

/-- C2 amended, witnessed at a concrete state: destination unset, threshold
INFO, level DEBUG. -/
theorem log_message_suppressed_frame_witness :
    (log_message { log_file := Dest.unset, current_log_level := LogLevel.LOG_INFO }
        LogLevel.LOG_DEBUG "ts" "m").written = none ∧
    (log_message { log_file := Dest.unset, current_log_level := LogLevel.LOG_INFO }
        LogLevel.LOG_DEBUG "ts" "m").exited = false ∧
    (log_message { log_file := Dest.unset, current_log_level := LogLevel.LOG_INFO }
        LogLevel.LOG_DEBUG "ts" "m").state.current_log_level = LogLevel.LOG_INFO ∧
    (log_message { log_file := Dest.unset, current_log_level := LogLevel.LOG_INFO }
        LogLevel.LOG_DEBUG "ts" "m").state.log_file =
      (if ({ log_file := Dest.unset, current_log_level := LogLevel.LOG_INFO } :
            LoggerState).log_file = Dest.unset then Dest.stdoutDest
       else ({ log_file := Dest.unset, current_log_level := LogLevel.LOG_INFO } :
            LoggerState).log_file) :=
  log_message_suppressed_frame
    { log_file := Dest.unset, current_log_level := LogLevel.LOG_INFO }
    LogLevel.LOG_DEBUG "ts" "m" (by decide)

/-- C3: a FATAL `log_message` call always writes (and hence flushes) its
line and terminates the process with a failure status, whatever the logger
state — in particular whatever the current threshold. -/
theorem log_message_fatal_exits (st : LoggerState) (ts msg : String) :
    ((log_message st LogLevel.LOG_FATAL ts msg).written).isSome = true ∧
    (log_message st LogLevel.LOG_FATAL ts msg).exited = true := by
  have hnlt : ¬ ((LogLevel.LOG_FATAL).toNat < st.current_log_level.toNat) := by
    cases h : st.current_log_level <;> simp [LogLevel.toNat]
  unfold log_message
  by_cases hd : st.log_file = Dest.unset <;> simp [hd, hnlt]

/-- C4: after `log_init` successfully opens a path as a file destination, a
`log_close` leaves the destination unset, and a `log_message` made after
that selects stdout as its destination. -/
theorem log_init_close_then_stdout (st : LoggerState) (path : String)
    (level : LogLevel) (openOk : String → Bool) (l : LogLevel) (ts msg : String)
    (h : openOk path = true) :
    (log_close (log_init st (some path) level openOk).state).log_file = Dest.unset ∧
    (log_message (log_close (log_init st (some path) level openOk).state)
        l ts msg).state.log_file = Dest.stdoutDest := by
  unfold log_init log_close log_message
  simp only [h, if_true]
  by_cases h2 : l.toNat < level.toNat <;> simp [h2]

/-- C4 witnessed at a concrete run: open "app.log" succeeds, close, then an
INFO message lands on stdout. -/
theorem log_init_close_then_stdout_witness :
    (log_close (log_init initialLoggerState (some "app.log") LogLevel.LOG_INFO
        (fun _ => true)).state).log_file = Dest.unset ∧
    (log_message (log_close (log_init initialLoggerState (some "app.log")
        LogLevel.LOG_INFO (fun _ => true)).state)
        LogLevel.LOG_INFO "ts" "m").state.log_file = Dest.stdoutDest :=
  log_init_close_then_stdout initialLoggerState "app.log" LogLevel.LOG_INFO
    (fun _ => true) LogLevel.LOG_INFO "ts" "m" rfl

/-- C5: when the path cannot be opened for append, `log_init` returns false,
prints a diagnostic to stderr, and leaves the destination unset. -/
theorem log_init_fail_behavior (st : LoggerState) (path : String)
    (level : LogLevel) (openOk : String → Bool) (h : openOk path = false) :
    (log_init st (some path) level openOk).ret = false ∧
    (log_init st (some path) level openOk).stderrDiag = true ∧
    (log_init st (some path) level openOk).state.log_file = Dest.unset := by
  unfold log_init
  simp [h]

/-- C5 witnessed at a concrete run where every open fails. -/
theorem log_init_fail_behavior_witness :
    (log_init initialLoggerState (some "bad.log") LogLevel.LOG_DEBUG
        (fun _ => false)).ret = false ∧
    (log_init initialLoggerState (some "bad.log") LogLevel.LOG_DEBUG
        (fun _ => false)).stderrDiag = true ∧
    (log_init initialLoggerState (some "bad.log") LogLevel.LOG_DEBUG
        (fun _ => false)).state.log_file = Dest.unset :=
  log_init_fail_behavior initialLoggerState "bad.log" LogLevel.LOG_DEBUG
    (fun _ => false) rfl

/-- C6: `log_init` stores the requested level as the threshold
unconditionally — for every starting state, filename (or NULL) and open
outcome, hence in particular after a failed open. -/
theorem log_init_sets_level_unconditionally (st : LoggerState)
    (filename : Option String) (level : LogLevel) (openOk : String → Bool) :
    (log_init st filename level openOk).state.current_log_level = level := by
  unfold log_init
  cases filename with
  | none => rfl
  | some f => by_cases h : openOk f <;> simp [h]

/-- Helper: the head surviving a `dropWhile` fails the predicate. -/
theorem dropWhile_head_not {α : Type} (p : α → Bool) :
    ∀ (cs : List α) (c : α) (rest : List α),
      cs.dropWhile p = c :: rest → p c = false := by
  intro cs
  induction cs with
  | nil => intro c rest h; simp [List.dropWhile] at h
  | cons a t ih =>
    intro c rest h
    by_cases ha : p a
    · simp [List.dropWhile, ha] at h
      exact ih c rest h
    · simp [List.dropWhile, ha] at h
      rw [← h.1]
      simp [ha]

/-- Helper: dropping a prefix over `xs ++ [c]` stops no later than `c` when
`c` fails the predicate. -/
theorem dropWhile_append_single {α : Type} (p : α → Bool) (c : α)
    (hc : p c = false) :
    ∀ xs : List α, (xs ++ [c]).dropWhile p = xs.dropWhile p ++ [c] := by
  intro xs
  induction xs with
  | nil => simp [List.dropWhile, hc]
  | cons a t ih =>
    by_cases ha : p a
    · simp [List.dropWhile, ha, ih]
    · simp [List.dropWhile, ha]

/-- C8: `str_trim` removes exactly the leading and the trailing run of
whitespace (space, tab, newline, carriage return) from any string, and in
particular maps " \t hi \n" to "hi" and the empty string to itself. -/
theorem str_trim_removes_ws :
    (∀ cs : List Char,
      str_trim (some cs)
        = some (((cs.dropWhile isSpaceChar).reverse.dropWhile
            isSpaceChar).reverse)) ∧
    str_trim (some (" \t hi \n".data)) = some ("hi".data) ∧
    str_trim (some ("".data)) = some ("".data) := by
  refine ⟨?_, by decide, by decide⟩
  intro cs
  cases h : cs.dropWhile isSpaceChar with
  | nil => simp [str_trim, h]
  | cons c rest =>
    have hc : isSpaceChar c = false := dropWhile_head_not isSpaceChar cs c rest h
    simp only [str_trim, h, List.reverse_cons,
      dropWhile_append_single isSpaceChar c hc, List.reverse_append]
    simp

/-- C9: `str_starts_with` decides exactly whether its second argument is a
prefix of the first and `str_ends_with` whether it is a suffix; each returns
false on a NULL argument; and the four concrete examples of the spec hold. -/
theorem str_affix_correct :
    (∀ s p : List Char,
        str_starts_with (some s) (some p) = true ↔ ∃ t, s = p ++ t) ∧
    (∀ s x : List Char,
        str_ends_with (some s) (some x) = true ↔ ∃ t, s = t ++ x) ∧
    (∀ p, str_starts_with none p = false) ∧
    (∀ s, str_starts_with s none = false) ∧
    (∀ x, str_ends_with none x = false) ∧
    (∀ s, str_ends_with s none = false) ∧
    str_starts_with (some "hello world".data) (some "hello".data) = true ∧
    str_starts_with (some "hi".data) (some "hello".data) = false ∧
    str_ends_with (some "report.txt".data) (some ".txt".data) = true ∧
    str_ends_with (some "x".data) (some "xxx".data) = false := by
  refine ⟨?_, ?_, ?_, ?_, ?_, ?_, by decide, by decide, by decide, by decide⟩
  · intro s p
    constructor
    · intro h
      unfold str_starts_with at h
      by_cases hl : p.length > s.length
      · simp [hl] at h
      · simp [hl] at h
        refine ⟨s.drop p.length, ?_⟩
        conv_lhs => rw [← List.take_append_drop p.length s]
        rw [h]
    · rintro ⟨t, rfl⟩
      have hl : ¬ (p.length > (p ++ t).length) := by simp
      unfold str_starts_with
      simp [hl, List.take_left]
  · intro s x
    constructor
    · intro h
      unfold str_ends_with at h
      by_cases hl : x.length > s.length
      · simp [hl] at h
      · simp [hl] at h
        refine ⟨s.take (s.length - x.length), ?_⟩
        conv_lhs => rw [← List.take_append_drop (s.length - x.length) s]
        rw [h]
    · rintro ⟨t, rfl⟩
      have hl : ¬ (x.length > (t ++ x).length) := by simp
      have hlen : (t ++ x).length - x.length = t.length := by simp
      unfold str_ends_with
      simp only [hl, if_false, decide_eq_true_eq, hlen]
      exact List.drop_left t x
  · intro p; cases p <;> rfl
  · intro s; cases s <;> rfl
  · intro x; cases x <;> rfl
  · intro s; cases s <;> rfl

/-- C7: reading an existing file of size 0 yields a zero-length string, not
NULL (the byte count of a read of 0 bytes is necessarily 0), and any read
whose byte count differs from the queried size yields NULL. -/
theorem file_read_all_empty_and_mismatch (fs : String → Option (List Nat))
    (f : String) (content : List Nat) (rc : Nat)
    (hf : fs f = some content) (hrc : rc ≤ content.length) :
    (content = [] → file_read_all fs (some f) rc = some []) ∧
    (rc ≠ content.length → file_read_all fs (some f) rc = none) := by
  constructor
  · intro hc
    subst hc
    have h0 : rc = 0 := Nat.le_zero.mp hrc
    subst h0
    simp [file_read_all, hf]
  · intro hne
    simp [file_read_all, hf, hne]

/-- C7 witnessed on a filesystem holding an empty "empty.txt" read fully. -/
theorem file_read_all_empty_witness :
    ((([] : List Nat) = [] →
        file_read_all (fun _ => some []) (some "empty.txt") 0 = some []) ∧
     ((0 : Nat) ≠ ([] : List Nat).length →
        file_read_all (fun _ => some []) (some "empty.txt") 0 = none)) :=
  file_read_all_empty_and_mismatch (fun _ => some []) "empty.txt" [] 0 rfl
    (by decide)

/-- C10 counterexample: at the representable reversed bounds
`random_int(INT_MAX, INT_MIN)` the program computes `max - min`, whose value
4294967295 overflows 32-bit `int` — undefined behavior (under wrapping it
reaches `rand() % 0`), so no value in [INT_MIN, INT_MAX] is returned: the
claim fails for these reversed `int` bounds. -/
theorem random_int_full_int_range_ub :
    random_int 2147483647 (-2147483648) 7 = none := by decide

/-- C10 amended: with reversed `int` bounds `a > b` whose inclusive width
`a - b + 1` is itself representable in 32-bit `int`, `random_int(a, b)`
swaps them and returns a value in the inclusive range [b, a], whatever
nonnegative value the underlying `rand()` call produces; for wider reversed
bounds the computation `max - min + 1` overflows (undefined behavior). -/
theorem random_int_reversed_in_range (a b : Int) (r : Nat) (h : a > b)
    (ha : a ≤ INT_MAX) (hb : INT_MIN ≤ b) (hw : a - b + 1 ≤ INT_MAX) :
    ∃ v, random_int a b r = some v ∧ b ≤ v ∧ v ≤ a := by
  have hpos : (0 : Int) < a - b + 1 := by omega
  have ht0 : 0 ≤ Int.tmod (r : Int) (a - b + 1) :=
    Int.tmod_nonneg _ (Int.natCast_nonneg r)
  have ht1 : Int.tmod (r : Int) (a - b + 1) < a - b + 1 :=
    Int.tmod_lt_of_pos _ hpos
  have hlo : (if a > b then b else a) = b := if_pos h
  have hhi : (if a > b then a else b) = a := if_pos h
  simp only [random_int, hlo, hhi, INT_MIN, INT_MAX] at *
  have hc1 : ¬(a - b < -2147483648 ∨ 2147483647 < a - b) := by omega
  have hc2 : ¬(a - b + 1 < -2147483648 ∨ 2147483647 < a - b + 1) := by omega
  have hc3 : ¬(a - b + 1 = 0) := by omega
  have hc4 : ¬(b + Int.tmod (r : Int) (a - b + 1) < -2147483648 ∨
      2147483647 < b + Int.tmod (r : Int) (a - b + 1)) := by omega
  rw [if_neg hc1, if_neg hc2, if_neg hc3, if_neg hc4]
  exact ⟨b + Int.tmod (r : Int) (a - b + 1), rfl, by omega, by omega⟩

/-- C10 amended, witnessed at `random_int(5, 1)` with `rand()` returning 7:
every hypothesis holds and the result lies in [1, 5]. -/
theorem random_int_reversed_witness :
    ∃ v, random_int 5 1 7 = some v ∧ 1 ≤ v ∧ v ≤ 5 :=
  random_int_reversed_in_range 5 1 7 (by decide) (by decide) (by decide)
    (by decide)

end CUtils
